import Mathlib

/-!
Verification of the GamePlan driver (`src/mame/gameplan/gameplan.cpp`):
a shallow embedding of the driver's handler functions and the state they
touch, followed by theorems about the spec's claims.

Machine integers are modelled as `Nat` with the masking the source performs
written explicitly.  Handlers whose only observable behaviour is calls into
collaborator devices (CPU input lines, the scheduler, the RIOT reset, the
coin counter) are modelled as functions returning the ordered list of those
calls (`Effect`s); handlers that mutate driver or device state are modelled
as functions on that state.
-/

/-- MAME line level constant: line cleared. -/
def CLEAR_LINE : Nat := 0

/-- MAME line level constant: line asserted. -/
def ASSERT_LINE : Nat := 1

/-- The CPU input lines of the audio CPU the driver drives:
`INPUT_LINE_RESET` and interrupt input line 0. -/
inductive CpuLine where
  | reset : CpuLine
  | irq0 : CpuLine
deriving DecidableEq, Repr

/-- One observable call into a collaborator device, in the order the
handler issues them.  `boostInterleave d u` stands for
`machine().scheduler().boost_interleave(attotime::from_usec(d), attotime::from_usec(u))`
(`attotime::zero` is `d = 0`). -/
inductive Effect where
  | setInputLine : CpuLine → Nat → Effect
  | riotReset : Effect
  | boostInterleave : Nat → Nat → Effect
  | coinCounter : Nat → Nat → Effect
deriving DecidableEq, Repr

/-- The persistent fields of `gameplan_state` that the claims touch
(the header declares them; `machine_start` registers exactly these six
for save states and `machine_reset` clears them). -/
structure gameplan_state where
  m_current_port : Nat
  m_video_x : Nat
  m_video_y : Nat
  m_video_command : Nat
  m_video_data : Nat
  m_video_previous : Nat
deriving DecidableEq, Repr

/-- `gameplan_state::io_select_w` (gameplan.cpp:92): the switch on `data`
updating `m_current_port`; any other code falls through and leaves the
current port unchanged. -/
def io_select_w (m_current_port : Nat) (data : Nat) : Nat :=
  match data with
  | 0x01 => 0
  | 0x02 => 1
  | 0x04 => 2
  | 0x08 => 3
  | 0x80 => 4
  | 0x40 => 5
  | _ => m_current_port

/-- The `portnames` table of `gameplan_state::io_port_r` (gameplan.cpp:108). -/
def portnames : List String := ["IN0", "IN1", "IN2", "IN3", "DSW0", "DSW1"]

/-- `gameplan_state::io_port_r` (gameplan.cpp:106): reads the input port
named `portnames[m_current_port]`.  The externally supplied input groups
are the function `ioport`; the C++ array index, unchecked at runtime, is
modelled with `List.get?`, so an out-of-range index yields `none`. -/
def io_port_r (ioport : String → Nat) (m_current_port : Nat) : Option Nat :=
  (portnames.get? m_current_port).map ioport

/-- `gameplan_state::coin_w` (gameplan.cpp:114):
`machine().bookkeeping().coin_counter_w(0, ~state & 1)`. -/
def coin_w (state : Nat) : List Effect :=
  [Effect.coinCounter 0 (((state &&& 1) ^^^ 1))]

/-- `gameplan_state::audio_reset_w` (gameplan.cpp:127): drives the audio
CPU reset input from the line level, and on `state == 0` also resets the
RIOT and requests a 10 µs interleave boost. -/
def audio_reset_w (state : Nat) : List Effect :=
  Effect.setInputLine CpuLine.reset (if state ≠ 0 then CLEAR_LINE else ASSERT_LINE) ::
    (if state = 0 then
      [Effect.riotReset, Effect.boostInterleave 0 10]
    else [])

/-- Modelled from the spec: the RIOT device's `porta_in_set(data, mask)`
(the generic timer/port collaborator is not part of this repository's
sources).  Per the spec's contract for the command latch, it is a masked
update of the 8-bit port-A input latch: bits selected by `mask` come from
`data`, the remaining bits keep their old value. -/
def porta_in_set (porta_in : Nat) (data : Nat) (mask : Nat) : Nat :=
  (porta_in &&& (0xff ^^^ mask)) ||| (data &&& mask)

/-- `gameplan_state::audio_cmd_w` (gameplan.cpp:139):
`m_riot->porta_in_set(data, 0x7f)`. -/
def audio_cmd_w (porta_in : Nat) (data : Nat) : Nat :=
  porta_in_set porta_in data 0x7f

/-- `gameplan_state::audio_trigger_w` (gameplan.cpp:145):
`m_riot->porta_in_set(state << 7, 0x80)`. -/
def audio_trigger_w (porta_in : Nat) (state : Nat) : Nat :=
  porta_in_set porta_in (state <<< 7) 0x80

/-- `gameplan_state::r6532_irq` (gameplan.cpp:158): forwards the RIOT's
interrupt output to the audio CPU's interrupt input line 0, and on the
asserting level also requests a 10 µs interleave boost. -/
def r6532_irq (state : Nat) : List Effect :=
  Effect.setInputLine CpuLine.irq0 state ::
    (if state = ASSERT_LINE then [Effect.boostInterleave 0 10] else [])

/-- `gameplan_state::machine_start` (gameplan.cpp:931): the names of the
fields registered for save states, in registration order. -/
def machine_start_save_items : List String :=
  ["m_current_port", "m_video_x", "m_video_y", "m_video_command",
   "m_video_data", "m_video_previous"]

/-- `gameplan_state::machine_reset` (gameplan.cpp:943): clears all six
persistent fields. -/
def machine_reset (_s : gameplan_state) : gameplan_state :=
  { m_current_port := 0, m_video_x := 0, m_video_y := 0,
    m_video_command := 0, m_video_data := 0, m_video_previous := 0 }

/-- Modelled from the spec: the coin-counter collaborator
(`bookkeeping_manager::coin_counter_w`, not part of this repository's
sources).  Per the spec it expects active-high pulses and increments
exactly once per rising edge of its input: it remembers the last value
written and increments when a nonzero value follows a zero one. -/
structure CoinCounter where
  last : Nat
  count : Nat
deriving DecidableEq, Repr

/-- Modelled from the spec: one write to the coin counter on its channel. -/
def coin_counter_w (cc : CoinCounter) (value : Nat) : CoinCounter :=
  { last := value,
    count := if cc.last = 0 ∧ value ≠ 0 then cc.count + 1 else cc.count }

/-- The composite step the driver induces on the coin counter: a line-level
change delivered to `coin_w`, whose single emitted value feeds the counter. -/
def coin_step (cc : CoinCounter) (state : Nat) : CoinCounter :=
  coin_counter_w cc ((state &&& 1) ^^^ 1)

/-- Feeding a sequence of line levels through `coin_w` into the counter. -/
def coin_run (cc : CoinCounter) : List Nat → CoinCounter
  | [] => cc
  | s :: rest => coin_run (coin_step cc s) rest

/-- The number of falling transitions (bit 0 goes from 1 to 0) in a level
sequence, given the level before the first element. -/
def fallingCount (prev : Nat) : List Nat → Nat
  | [] => 0
  | s :: rest =>
      (if prev &&& 1 = 1 ∧ s &&& 1 = 0 then 1 else 0) + fallingCount s rest

/-! ### Helper lemmas -/

theorem lor_land_distrib (a b m : Nat) :
    (a ||| b) &&& m = (a &&& m) ||| (b &&& m) := by
  apply Nat.eq_of_testBit_eq; intro i
  simp only [Nat.testBit_land, Nat.testBit_lor]
  cases Nat.testBit a i <;> cases Nat.testBit b i <;> cases Nat.testBit m i <;> rfl

theorem land_128_127 (a : Nat) : a &&& 128 &&& 127 = 0 := by
  rw [Nat.and_assoc]
  have h : (128 &&& 127 : Nat) = 0 := by decide
  rw [h, Nat.and_zero]

theorem land_127_128 (a : Nat) : a &&& 127 &&& 128 = 0 := by
  rw [Nat.and_assoc]
  have h : (127 &&& 128 : Nat) = 0 := by decide
  rw [h, Nat.and_zero]

theorem land_127_127 (a : Nat) : a &&& 127 &&& 127 = a &&& 127 := by
  rw [Nat.and_assoc]
  have h : (127 &&& 127 : Nat) = 127 := by decide
  rw [h]

theorem land_128_128 (a : Nat) : a &&& 128 &&& 128 = a &&& 128 := by
  rw [Nat.and_assoc]
  have h : (128 &&& 128 : Nat) = 128 := by decide
  rw [h]

theorem inv_eq_zero_iff (p : Nat) : (p &&& 1) ^^^ 1 = 0 ↔ p &&& 1 = 1 := by
  rw [Nat.and_one_is_mod]
  rcases Nat.mod_two_eq_zero_or_one p with h | h <;> simp [h]

theorem coin_step_last (cc : CoinCounter) (s : Nat) :
    (coin_step cc s).last = (s &&& 1) ^^^ 1 := rfl

theorem coin_step_count (cc : CoinCounter) (s : Nat) :
    (coin_step cc s).count =
      if cc.last = 0 ∧ s &&& 1 = 0 then cc.count + 1 else cc.count := by
  unfold coin_step coin_counter_w
  rcases Nat.mod_two_eq_zero_or_one s with h | h <;>
    simp [Nat.and_one_is_mod, h]

theorem coin_run_count_aux (ls : List Nat) : ∀ (cc : CoinCounter) (prev : Nat),
    cc.last = (prev &&& 1) ^^^ 1 →
    (coin_run cc ls).count = cc.count + fallingCount prev ls := by
  induction ls with
  | nil => intro cc prev _; rfl
  | cons s rest ih =>
      intro cc prev h
      have h1 : (coin_run cc (s :: rest)).count =
          (coin_run (coin_step cc s) rest).count := rfl
      rw [h1, ih (coin_step cc s) s (coin_step_last cc s), coin_step_count, h]
      show _ = cc.count +
        ((if prev &&& 1 = 1 ∧ s &&& 1 = 0 then 1 else 0) + fallingCount s rest)
      by_cases hc : prev &&& 1 = 1 ∧ s &&& 1 = 0
      · rw [if_pos ⟨(inv_eq_zero_iff prev).mpr hc.1, hc.2⟩, if_pos hc]
        omega
      · rw [if_neg (fun hcon => hc ⟨(inv_eq_zero_iff prev).mp hcon.1, hcon.2⟩),
          if_neg hc]
        omega

/-! ### Claim theorems -/

/-- C2: for every code in the fixed mapping {0x01→0, 0x02→1, 0x04→2, 0x08→3,
0x80→4, 0x40→5}, `io_select_w` with that code sets the current port index to
the mapped value, and a subsequent `io_port_r` returns exactly the externally
supplied value of the input group at that index, regardless of the previous
selection. -/
theorem io_select_then_read (code idx : Nat)
    (hmap : (code, idx) ∈
      [((0x01 : Nat), (0 : Nat)), (0x02, 1), (0x04, 2), (0x08, 3), (0x80, 4), (0x40, 5)])
    (prev : Nat) (ioport : String → Nat) :
    io_select_w prev code = idx ∧
    io_port_r ioport (io_select_w prev code) = (portnames.get? idx).map ioport := by
  simp only [List.mem_cons, List.not_mem_nil, or_false, Prod.mk.injEq] at hmap
  rcases hmap with ⟨rfl, rfl⟩ | ⟨rfl, rfl⟩ | ⟨rfl, rfl⟩ | ⟨rfl, rfl⟩ |
    ⟨rfl, rfl⟩ | ⟨rfl, rfl⟩ <;> exact ⟨rfl, rfl⟩

/-- Witness for C2: selecting code 0x04 after a previous selection of 5, with
input group 2 ("IN2") equal to 0xA5, makes `io_port_r` return 0xA5. -/
theorem io_select_then_read_witness :
    io_select_w 5 0x04 = 2 ∧
    io_port_r (fun n => if n = "IN2" then 0xA5 else 0) (io_select_w 5 0x04) =
      some 0xA5 := by
  have h := io_select_then_read 0x04 2 (by decide) 5
    (fun n => if n = "IN2" then 0xA5 else 0)
  exact ⟨h.1, by rw [h.2]; rfl⟩

/-- C5: any select code outside {0x01, 0x02, 0x04, 0x08, 0x80, 0x40} leaves
the current port unchanged, so a read after the invalid write returns the
same value as before it. -/
theorem io_select_invalid_noop (data : Nat)
    (hdata : data ∉ [(0x01 : Nat), 0x02, 0x04, 0x08, 0x80, 0x40])
    (prev : Nat) (ioport : String → Nat) :
    io_select_w prev data = prev ∧
    io_port_r ioport (io_select_w prev data) = io_port_r ioport prev := by
  have h : io_select_w prev data = prev := by
    unfold io_select_w
    split <;> simp_all
  exact ⟨h, by rw [h]⟩

/-- Witness for C5: the invalid code 0xFF leaves the selection at 3 and the
read value unchanged. -/
theorem io_select_invalid_noop_witness :
    io_select_w 3 0xFF = 3 ∧
    io_port_r (fun _ => 7) (io_select_w 3 0xFF) = io_port_r (fun _ => 7) 3 :=
  io_select_invalid_noop 0xFF (by decide) 3 (fun _ => 7)

/-- C3: `audio_cmd_w` updates only bits 0–6 of the RIOT port-A latch, leaving
bit 7 unchanged (result `(old &&& 0x80) ||| (c &&& 0x7f)`); `audio_trigger_w`
with level `v` updates only bit 7 (result `(old &&& 0x7f) ||| (v <<< 7)`);
in particular writing command 0x3C while the trigger bit is 1 makes the
latch read 0xBC. -/
theorem audio_latch_masked_updates (old c v : Nat) (hv : v ≤ 1) :
    audio_cmd_w old c = (old &&& 0x80) ||| (c &&& 0x7f) ∧
    audio_trigger_w old v = (old &&& 0x7f) ||| (v <<< 7) ∧
    audio_cmd_w (audio_trigger_w 0 1) 0x3C = 0xBC := by
  refine ⟨?_, ?_, by decide⟩
  · unfold audio_cmd_w porta_in_set
    have h : (0xff ^^^ 0x7f : Nat) = 0x80 := by decide
    rw [h]
  · unfold audio_trigger_w porta_in_set
    have h : (0xff ^^^ 0x80 : Nat) = 0x7f := by decide
    rw [h]
    interval_cases v
    · simp
    · have h1 : (1 <<< 7 : Nat) = 128 := by decide
      have h2 : (128 &&& 128 : Nat) = 128 := by decide
      rw [h1, h2]

/-- Witness for C3: with the latch at 0xFF, a command write of 0x3C yields
0xBC, a trigger write of 1 keeps 0xFF, and the spec's scenario holds. -/
theorem audio_latch_masked_updates_witness :
    audio_cmd_w 0xFF 0x3C = 0xBC ∧ audio_trigger_w 0xFF 1 = 0xFF ∧
    audio_cmd_w (audio_trigger_w 0 1) 0x3C = 0xBC := by
  have h := audio_latch_masked_updates 0xFF 0x3C 1 (by decide)
  exact ⟨by rw [h.1]; decide, by rw [h.2.1]; decide, h.2.2⟩

/-- C4: for every starting latch value, command byte and trigger level, the
command write and the trigger write commute: applying them in either order
yields the same final latch byte. -/
theorem audio_latch_writes_commute (old c v : Nat) :
    audio_trigger_w (audio_cmd_w old c) v = audio_cmd_w (audio_trigger_w old v) c := by
  unfold audio_trigger_w audio_cmd_w porta_in_set
  have h1 : (0xff ^^^ 0x7f : Nat) = 0x80 := by decide
  have h2 : (0xff ^^^ 0x80 : Nat) = 0x7f := by decide
  rw [h1, h2, lor_land_distrib, lor_land_distrib, land_128_127, land_127_127,
    land_127_128, land_128_128, Nat.zero_or, Nat.zero_or]
  exact Nat.or_comm _ _

/-- C1 counterexample: at line level 1 — the level at which the reset input
is released (`CLEAR_LINE` is driven) — the handler does NOT reset the RIOT
and does NOT request a boost, so its effect trace is not the claimed
(a)(b)(c) sequence; instead the RIOT reset happens on the asserting level 0. -/
theorem audio_reset_w_counterexample :
    audio_reset_w 1 ≠
      [Effect.setInputLine CpuLine.reset CLEAR_LINE, Effect.riotReset,
       Effect.boostInterleave 0 10] ∧
    Effect.riotReset ∉ audio_reset_w 1 ∧
    Effect.riotReset ∈ audio_reset_w 0 := by decide

/-- C1 (amended): on any transition to a nonzero level — the level that
releases the secondary CPU's reset input — the handler only clears the reset
input; on the transition to level 0 — the level that asserts the reset
input — it asserts the reset input, force-resets the RIOT, and requests an
interleave boost with zero initial delay and 10 µs duration, in that order. -/
theorem audio_reset_w_sequencing (s : Nat) (hs : s ≠ 0) :
    audio_reset_w s = [Effect.setInputLine CpuLine.reset CLEAR_LINE] ∧
    audio_reset_w 0 =
      [Effect.setInputLine CpuLine.reset ASSERT_LINE, Effect.riotReset,
       Effect.boostInterleave 0 10] := by
  constructor
  · simp [audio_reset_w, hs]
  · decide

/-- Witness for C1 (amended), at line level 1. -/
theorem audio_reset_w_sequencing_witness :
    audio_reset_w 1 = [Effect.setInputLine CpuLine.reset CLEAR_LINE] ∧
    audio_reset_w 0 =
      [Effect.setInputLine CpuLine.reset ASSERT_LINE, Effect.riotReset,
       Effect.boostInterleave 0 10] :=
  audio_reset_w_sequencing 1 (by decide)

/-- C10: for every nonzero input level, `audio_reset_w` only clears the
secondary CPU's reset input — its whole effect trace is that single call, so
the RIOT is untouched and no boost is requested on that branch. -/
theorem audio_reset_w_nonzero_only_clears (s : Nat) (hs : s ≠ 0) :
    audio_reset_w s = [Effect.setInputLine CpuLine.reset CLEAR_LINE] := by
  simp [audio_reset_w, hs]

/-- Witness for C10, at line level 1. -/
theorem audio_reset_w_nonzero_only_clears_witness :
    audio_reset_w 1 = [Effect.setInputLine CpuLine.reset CLEAR_LINE] :=
  audio_reset_w_nonzero_only_clears 1 (by decide)

/-- C7: `r6532_irq` forwards its input level to the audio CPU's interrupt
input line 0 as its first action in the same call, and its trace contains a
boost request exactly when the level is `ASSERT_LINE`, never on clearing. -/
theorem r6532_irq_forward_and_boost (s : Nat) :
    (r6532_irq s).head? = some (Effect.setInputLine CpuLine.irq0 s) ∧
    ((∃ d u, Effect.boostInterleave d u ∈ r6532_irq s) ↔ s = ASSERT_LINE) := by
  constructor
  · rfl
  · by_cases h : s = 1 <;> simp [r6532_irq, ASSERT_LINE, h]

/-- C6: `coin_w` passes the inversion of bit 0 of the incoming line level to
coin counter channel 0, and feeding any sequence of line levels through this
boundary makes the (spec-modelled) counter increment exactly once per falling
transition of the incoming line. -/
theorem coin_w_inversion_and_counting (s prev n : Nat) (ls : List Nat) :
    coin_w s = [Effect.coinCounter 0 ((s &&& 1) ^^^ 1)] ∧
    (coin_run ⟨(prev &&& 1) ^^^ 1, n⟩ ls).count = n + fallingCount prev ls :=
  ⟨rfl, coin_run_count_aux ls ⟨(prev &&& 1) ^^^ 1, n⟩ prev rfl⟩

/-- C8: machine reset sets the current port index to 0, so a read with no
selection made after reset returns input group 0 ("IN0"); and machine start
registers `m_current_port` — along with the five other persistent driver
fields — for save states. -/
theorem machine_reset_and_save_registration (s : gameplan_state)
    (ioport : String → Nat) :
    (machine_reset s).m_current_port = 0 ∧
    io_port_r ioport (machine_reset s).m_current_port = some (ioport "IN0") ∧
    "m_current_port" ∈ machine_start_save_items ∧
    "m_video_x" ∈ machine_start_save_items ∧
    "m_video_y" ∈ machine_start_save_items ∧
    "m_video_command" ∈ machine_start_save_items ∧
    "m_video_data" ∈ machine_start_save_items ∧
    "m_video_previous" ∈ machine_start_save_items :=
  ⟨rfl, rfl, by decide, by decide, by decide, by decide, by decide, by decide⟩

/-- C9: the invariant `m_current_port < 6` is established by machine reset
and preserved by every write (`io_select_w` maps any data to an index below
6 when starting below 6), and under it the port-name table lookup in
`io_port_r` is always in bounds (the read never fails). -/
theorem current_port_in_bounds (s : gameplan_state) (p data : Nat)
    (hp : p < 6) (ioport : String → Nat) :
    (machine_reset s).m_current_port < 6 ∧
    io_select_w p data < 6 ∧
    (io_port_r ioport p).isSome = true := by
  refine ⟨by show (0 : Nat) < 6; decide, ?_, ?_⟩
  · unfold io_select_w
    split <;> omega
  · interval_cases p <;> rfl

/-- Witness for C9: at selection 5 and the invalid write 0xFF. -/
theorem current_port_in_bounds_witness :
    (machine_reset ⟨9, 9, 9, 9, 9, 9⟩).m_current_port < 6 ∧
    io_select_w 5 0xFF < 6 ∧
    (io_port_r (fun _ => 0) 5).isSome = true :=
  current_port_in_bounds ⟨9, 9, 9, 9, 9, 9⟩ 5 0xFF (by decide) (fun _ => 0)
